import Mathlib

/-!
# Verification of the SSO daemon's authentication core

Shallow embedding of the `Sheraff/sso` repository: the session manager
(`src/server/src/sessions/sessions.ts` and `src/server/src/sessions.ts`), the
cookie cryptography contract (§4.2 of the design document; the `encryption.ts`
module itself ships only as a dependency of the files in the repository), the
IPC server handlers (`src/server/src/ipc/server.ts`), the IPC client state
machine (`src/client/index.ts`), the invitation manager
(`src/server/src/invitations/*`), the redirect-host validation
(`src/server/src/domain.ts`) and the bounded LRU cache
(`src/server/src/lru-cache.ts`).

Times are modelled as natural numbers counting milliseconds; SQLite's
`datetime('now', '+N days')` becomes `now + N * msPerDay`.  Database tables
become lists of rows; SQL `SELECT ... WHERE ... LIMIT 1` becomes `List.find?`,
`DELETE ... WHERE p` becomes `List.filter (¬ p)`, `UPDATE ... WHERE p` becomes
`List.map`.  `crypto.randomUUID()` values are passed in as explicit `fresh*`
arguments.  The debounced cleanup timer (`scheduleCleanup`) only deletes
already-expired rows on a background tick and is not part of any claim; it is
not modelled.
-/

set_option autoImplicit false

namespace SSO

/-- One day in milliseconds. -/
def msPerDay : Nat := 86400000

/-- `src/server/src/sessions/constants.ts`: session cookie lifetime in days. -/
def SESSION_COOKIE_MAX_AGE_DAYS : Nat := 90

/-- Row of the `accounts` table (`schema.sql`). -/
structure Account where
  id : String
  user_id : String
  provider : String
  provider_user_id : String
deriving Repr, DecidableEq

/-- Row of the `sessions` table.  The `session` column stores a JSON metadata
string `{"createdAt": ...}`; it is modelled by the creation timestamp that the
string records. -/
structure SessionRow where
  id : String
  user_id : String
  session : Nat
  expires_at : Nat
  account_id : String
deriving Repr, DecidableEq

/-- Row of the `invites` table. -/
structure Invite where
  code : String
  expires_at : Nat
deriving Repr, DecidableEq

/-- The persistent relational store (four tables, `schema.sql`). -/
structure Db where
  users : List (String × String)
  accounts : List Account
  sessions : List SessionRow
  invites : List Invite
deriving Repr, DecidableEq

/-- `getSessionWithUser` (`sessions/sessions.ts`): the prepared statement
`SELECT ... FROM sessions WHERE sessions.id = ? AND sessions.expires_at >
datetime('now')`, i.e. the first row whose id matches and which is unexpired. -/
def getSessionWithUser (db : Db) (now : Nat) (sessionId : String) : Option SessionRow :=
  db.sessions.find? (fun s => s.id == sessionId && decide (now < s.expires_at))

/-- `refreshSession` (`sessions.ts`): `UPDATE sessions SET expires_at =
datetime('now', '+50 days') WHERE id = ?`. -/
def refreshSession (db : Db) (now : Nat) (sessionId : String) : Db :=
  { db with
    sessions := db.sessions.map fun s =>
      if s.id = sessionId then { s with expires_at := now + 50 * msPerDay } else s }

/-- The private `createSession` helper (`sessions/sessions.ts`): inserts a row
with expiry `now + SESSION_COOKIE_MAX_AGE_DAYS days`, then runs
`DELETE FROM sessions WHERE user_id = ? AND id != ?` (session-fixation
prevention).  `freshSessionId` stands for the `crypto.randomUUID()` draw. -/
def createSession (db : Db) (now : Nat) (freshSessionId : String)
    (userId accountId : String) : String × Db :=
  let row : SessionRow :=
    { id := freshSessionId, user_id := userId, session := now,
      expires_at := now + SESSION_COOKIE_MAX_AGE_DAYS * msPerDay, account_id := accountId }
  let inserted := db.sessions ++ [row]
  let remaining := inserted.filter fun s => !(s.user_id == userId && !(s.id == freshSessionId))
  (freshSessionId, { db with sessions := remaining })

/-- `createSessionForProvider` (`sessions/sessions.ts`): looks up the account
by `(provider, provider_user_id)` and, when found, creates a session for its
owning user. -/
def createSessionForProvider (db : Db) (now : Nat) (freshSessionId : String)
    (provider providerUserId : String) : Option String × Db :=
  match db.accounts.find? (fun a => a.provider == provider && a.provider_user_id == providerUserId) with
  | none => (none, db)
  | some userRow =>
    let r := createSession db now freshSessionId userRow.user_id userRow.id
    (some r.1, r.2)

/-- `createUserWithProvider` (`sessions/sessions.ts`): resolves the user from a
valid `previousSessionId` (account linking) or creates a fresh user, creates
the provider account when missing, then creates a session.  `freshUserId` and
`freshAccountId` stand for the `crypto.randomUUID()` draws. -/
def createUserWithProvider (db : Db) (now : Nat)
    (freshSessionId freshUserId freshAccountId : String)
    (provider providerUserId email : String) (previousSessionId : Option String) :
    String × Db :=
  let resolved : Option (String × Option String) :=
    match previousSessionId with
    | some ps =>
      match getSessionWithUser db now ps with
      | some session =>
        some (session.user_id,
          (db.accounts.find? fun a => a.user_id == session.user_id && a.provider == provider).map
            Account.id)
      | none => none
    | none => none
  match resolved with
  | some (userId, some accountId) => createSession db now freshSessionId userId accountId
  | some (userId, none) =>
    let db1 := { db with accounts := db.accounts ++
      [{ id := freshAccountId, user_id := userId, provider := provider,
         provider_user_id := providerUserId }] }
    createSession db1 now freshSessionId userId freshAccountId
  | none =>
    let db1 := { db with users := db.users ++ [(freshUserId, email)] }
    let db2 := { db1 with accounts := db1.accounts ++
      [{ id := freshAccountId, user_id := freshUserId, provider := provider,
         provider_user_id := providerUserId }] }
    createSession db2 now freshSessionId freshUserId freshAccountId

/-- The user id that `createUserWithProvider` creates the session for: the
owner of a valid `previousSessionId` when one resolves, else the fresh user. -/
def resolvedUserId (db : Db) (now : Nat) (freshUserId : String)
    (previousSessionId : Option String) : String :=
  match previousSessionId with
  | some ps =>
    match getSessionWithUser db now ps with
    | some session => session.user_id
    | none => freshUserId
  | none => freshUserId

/-- Applying `refreshSession` twice with the same clock is the same as applying
it once: the update writes the absolute value `now + 50 days`. -/
theorem refreshSession_refreshSession (db : Db) (now : Nat) (sid : String) :
    refreshSession (refreshSession db now sid) now sid = refreshSession db now sid := by
  unfold refreshSession
  simp only [List.map_map]
  congr 1
  apply List.map_congr_left
  intro s _
  by_cases h : s.id = sid <;> simp [h]

/-- After `createSession` for user `u`, a session id distinct from the fresh id
whose rows all belonged to `u` is gone: `getSessionWithUser` returns `none`. -/
theorem getSessionWithUser_after_createSession (db : Db) (now : Nat)
    (fsid u aid sidOld : String) (hne : sidOld ≠ fsid)
    (hall : ∀ r ∈ db.sessions, r.id = sidOld → r.user_id = u) :
    getSessionWithUser (createSession db now fsid u aid).2 now sidOld = none := by
  unfold getSessionWithUser createSession
  simp only
  rw [List.find?_eq_none]
  intro s hs
  simp only [List.mem_filter, List.mem_append, List.mem_singleton,
    Bool.not_eq_eq_eq_not, Bool.not_true, Bool.and_eq_false_imp, beq_iff_eq,
    Bool.not_eq_false] at hs
  obtain ⟨hmem | hrow, hkeep⟩ := hs
  · simp only [Bool.and_eq_true, beq_iff_eq, decide_eq_true_eq, not_and]
    intro hid _
    have huser : s.user_id = u := hall s hmem hid
    have : s.id = fsid := by
      have := hkeep huser
      simpa using this
    exact hne (hid ▸ this ▸ rfl)
  · subst hrow
    simp [hne.symm]

/-- **C3.** For every user, after a new session is created for that user (via
`createSessionForProvider` or `createUserWithProvider`), every session id
previously valid for that user other than the new one fails
`getSessionWithUser` (returns `none`); moreover the new session is the only
session of that user left in the store. -/
theorem createSession_invalidates_other_sessions :
    (∀ (db : Db) (now : Nat) (fsid prov puid sidOld : String) (rowOld : SessionRow)
       (newSid : String) (db' : Db),
       getSessionWithUser db now sidOld = some rowOld →
       createSessionForProvider db now fsid prov puid = (some newSid, db') →
       (∀ acc ∈ db.accounts, acc.provider = prov → acc.provider_user_id = puid →
          acc.user_id = rowOld.user_id) →
       sidOld ≠ newSid →
       (∀ r ∈ db.sessions, r.id = sidOld → r.user_id = rowOld.user_id) →
       getSessionWithUser db' now sidOld = none) ∧
    (∀ (db : Db) (now : Nat) (fsid fuid faid prov puid email : String)
       (prevSid : Option String) (sidOld : String) (rowOld : SessionRow)
       (newSid : String) (db' : Db),
       getSessionWithUser db now sidOld = some rowOld →
       createUserWithProvider db now fsid fuid faid prov puid email prevSid = (newSid, db') →
       rowOld.user_id = resolvedUserId db now fuid prevSid →
       sidOld ≠ newSid →
       (∀ r ∈ db.sessions, r.id = sidOld → r.user_id = rowOld.user_id) →
       getSessionWithUser db' now sidOld = none) ∧
    (∀ (db : Db) (now : Nat) (fsid u aid : String),
       (∀ r ∈ db.sessions, r.id ≠ fsid) →
       ((createSession db now fsid u aid).2.sessions.filter fun r => r.user_id == u) =
         [{ id := fsid, user_id := u, session := now,
            expires_at := now + SESSION_COOKIE_MAX_AGE_DAYS * msPerDay, account_id := aid }]) := by
  have key : ∀ (db : Db) (now : Nat) (fsid u aid sidOld : String) (rowOld : SessionRow)
      (newSid : String) (db' : Db),
      createSession db now fsid u aid = (newSid, db') →
      u = rowOld.user_id →
      sidOld ≠ newSid →
      (∀ r ∈ db.sessions, r.id = sidOld → r.user_id = rowOld.user_id) →
      getSessionWithUser db' now sidOld = none := by
    intro db now fsid u aid sidOld rowOld newSid db' hcreate hu hne hall
    have h1 : fsid = newSid := congrArg Prod.fst hcreate
    have h2 : (createSession db now fsid u aid).2 = db' := congrArg Prod.snd hcreate
    rw [← h2]
    exact getSessionWithUser_after_createSession db now fsid u aid sidOld
      (h1 ▸ hne) (by intro r hr hid; rw [hu]; exact hall r hr hid)
  refine ⟨?_, ?_, ?_⟩
  · intro db now fsid prov puid sidOld rowOld newSid db' _hold hcreate hacc hne hall
    unfold createSessionForProvider at hcreate
    cases hfind : db.accounts.find?
        (fun a => a.provider == prov && a.provider_user_id == puid) with
    | none => rw [hfind] at hcreate; simp at hcreate
    | some acc =>
      rw [hfind] at hcreate
      have hpair : createSession db now fsid acc.user_id acc.id = (newSid, db') := by
        have hfst : some (createSession db now fsid acc.user_id acc.id).1 = some newSid :=
          congrArg Prod.fst hcreate
        have hsnd : (createSession db now fsid acc.user_id acc.id).2 = db' :=
          congrArg Prod.snd hcreate
        exact Prod.ext (Option.some.injEq _ _ ▸ hfst) hsnd
      have hpred := List.find?_some hfind
      simp only [Bool.and_eq_true, beq_iff_eq] at hpred
      have hmem := List.mem_of_find?_eq_some hfind
      exact key db now fsid acc.user_id acc.id sidOld rowOld newSid db' hpair
        (hacc acc hmem hpred.1 hpred.2) hne hall
  · intro db now fsid fuid faid prov puid email prevSid sidOld rowOld newSid db'
      _hold hcreate hres hne hall
    obtain ⟨dbX, aid, heq, hsess⟩ :
        ∃ (dbX : Db) (aid : String),
          createUserWithProvider db now fsid fuid faid prov puid email prevSid =
            createSession dbX now fsid (resolvedUserId db now fuid prevSid) aid ∧
          dbX.sessions = db.sessions := by
      cases prevSid with
      | none =>
        refine ⟨{ db with
            users := db.users ++ [(fuid, email)],
            accounts := db.accounts ++
              [{ id := faid, user_id := fuid, provider := prov,
                 provider_user_id := puid }] }, faid, rfl, rfl⟩
      | some ps =>
        cases h : getSessionWithUser db now ps with
        | none =>
          refine ⟨{ db with
              users := db.users ++ [(fuid, email)],
              accounts := db.accounts ++
                [{ id := faid, user_id := fuid, provider := prov,
                   provider_user_id := puid }] }, faid, ?_, rfl⟩
          simp only [createUserWithProvider, resolvedUserId, h]
        | some session =>
          cases hb : db.accounts.find?
              (fun a => a.user_id == session.user_id && a.provider == prov) with
          | none =>
            refine ⟨{ db with
                accounts := db.accounts ++
                  [{ id := faid, user_id := session.user_id, provider := prov,
                     provider_user_id := puid }] }, faid, ?_, rfl⟩
            simp only [createUserWithProvider, resolvedUserId, h, hb, Option.map_none']
          | some acc =>
            refine ⟨db, acc.id, ?_, rfl⟩
            simp only [createUserWithProvider, resolvedUserId, h, hb, Option.map_some']
    rw [heq] at hcreate
    refine key dbX now fsid (resolvedUserId db now fuid prevSid) aid sidOld rowOld newSid db'
      hcreate hres.symm hne ?_
    rw [hsess]
    exact hall
  · intro db now fsid u aid hfresh
    have general : ∀ (l : List SessionRow) (row : SessionRow),
        row.user_id = u → row.id = fsid → (∀ r ∈ l, r.id ≠ fsid) →
        ((l ++ [row]).filter fun s => !(s.user_id == u && !(s.id == fsid))).filter
            (fun r => r.user_id == u) = [row] := by
      intro l row hrowu hrowid hl
      induction l with
      | nil => simp [hrowu, hrowid]
      | cons a t ih =>
        have hid : a.id ≠ fsid := hl a (by simp)
        have ht : ∀ r ∈ t, r.id ≠ fsid := fun r hr => hl r (by simp [hr])
        rw [List.cons_append]
        by_cases hu : a.user_id = u
        · rw [List.filter_cons_of_neg (by simp [hu, hid]), ih ht]
        · rw [List.filter_cons_of_pos (by simp [hu]),
            List.filter_cons_of_neg (by simp [hu]), ih ht]
    exact general db.sessions _ rfl rfl hfresh

/-- Concrete witness data: a store holding one live session for user `u1` and
a matching provider account. -/
def rowW : SessionRow :=
  { id := "s1", user_id := "u1", session := 0, expires_at := 7, account_id := "a1" }

def dbW : Db :=
  { users := [("u1", "x@y.z")],
    accounts := [{ id := "a1", user_id := "u1", provider := "google", provider_user_id := "p1" }],
    sessions := [rowW], invites := [] }

/-- Witness for **C3**: running `createSessionForProvider` over the concrete
store kills the previously live session id `s1`. -/
theorem createSession_invalidates_other_sessions_witness :
    getSessionWithUser (createSessionForProvider dbW 1 "s2" "google" "p1").2 1 "s1" = none :=
  createSession_invalidates_other_sessions.1 dbW 1 "s2" "google" "p1" "s1" rowW "s2"
    (createSessionForProvider dbW 1 "s2" "google" "p1").2
    (by decide) (by decide)
    (by intro acc hacc _ _; simp [dbW] at hacc; simp [hacc, rowW])
    (by decide)
    (by intro r hr _; simp [dbW] at hr; simp [hr, rowW])

/-- **C5.** `refreshSession` is idempotent: for any live session, calling it
`N ≥ 1` times in succession yields the same store as calling it once, and the
session's `expires_at` is reset to `now + 50 days`, never accumulated. -/
theorem refreshSession_idempotent (db : Db) (now : Nat) (sessionId : String) (N : Nat)
    (_hlive : ∃ s ∈ db.sessions, s.id = sessionId ∧ now < s.expires_at) (hN : 1 ≤ N) :
    (fun d => refreshSession d now sessionId)^[N] db = refreshSession db now sessionId ∧
    ∀ s ∈ (refreshSession db now sessionId).sessions, s.id = sessionId →
      s.expires_at = now + 50 * msPerDay := by
  obtain ⟨M, rfl⟩ : ∃ M, N = M + 1 := ⟨N - 1, by omega⟩
  constructor
  · rw [Function.iterate_succ_apply]
    exact Function.iterate_fixed (refreshSession_refreshSession db now sessionId) M
  · intro s hs hid
    unfold refreshSession at hs
    simp only [List.mem_map] at hs
    obtain ⟨t, _ht, rfl⟩ := hs
    by_cases h : t.id = sessionId
    · simp [h]
    · simp only [if_neg h] at hid ⊢
      exact absurd hid h

/-- Witness for **C5**: three refreshes of the concrete store collapse to one. -/
theorem refreshSession_idempotent_witness :
    (fun d => refreshSession d 1 "s1")^[3] dbW = refreshSession dbW 1 "s1" ∧
    ∀ s ∈ (refreshSession dbW 1 "s1").sessions, s.id = "s1" →
      s.expires_at = 1 + 50 * msPerDay :=
  refreshSession_idempotent dbW 1 "s1" 3 ⟨rowW, by decide, by decide, by decide⟩ (by decide)

/-! ## Cookie cryptography (§4.2)

The repository ships `encryption.ts` only as an import of
`sessions.ts`/`sessions/sessions.ts`; the module body is not among the source
files.  Everything in this section is therefore modelled from the spec. -/

/-- `decrypt`'s result type: `{success: plaintext} | {error}`. -/
inductive DecryptResult where
  | success (plaintext : String)
  | error (message : String)
deriving Repr, DecidableEq

/-- Modelled from the spec: the parsed fields of the cookie wire format
`iterations | salt | iv | authTag | ciphertext` (§4.2, §6), with the salt a
32-byte value (64 hex digits), the IV 12 bytes (24 hex digits), the
authentication tag 16 bytes (32 hex digits) and the ciphertext a byte
sequence. -/
structure EncryptedCookie where
  iterations : Nat
  salt : Nat
  iv : Nat
  authTag : Nat
  ciphertext : List Nat
deriving Repr, DecidableEq

def hashString (s : String) : Nat :=
  s.data.foldl (fun h c => h * 131 + c.toNat) 7

/-- Modelled from the spec: the PBKDF2/SHA-512-class key derivation from the
long-lived secret, the embedded salt and the per-call iteration count.  A
concrete arithmetic stand-in; the theorems only use that the same
`(secret, salt, iterations)` re-derives the same key. -/
def deriveKey (secret : String) (salt iterations : Nat) : Nat :=
  hashString secret * 1000003 + salt * 65599 + iterations * 131

/-- Modelled from the spec: the AEAD keystream; one 24-bit unit per plaintext
character.  Kept below `16 ^ 6` so ciphertext units stay 6 hex digits wide. -/
def keystream (key iv i : Nat) : Nat :=
  ((key + iv * 8191) * 2654435761 + i * 40503) % (16 ^ 6)

/-- Modelled from the spec: the 16-byte AEAD authentication tag over the
ciphertext, keyed by the derived key and IV. -/
def macTag (key iv : Nat) (ct : List Nat) : Nat :=
  (ct.foldl (fun h b => h * 257 + b) (key * 31 + iv)) % (16 ^ 32)

/-- XOR of a byte sequence against the keystream starting at position `i`;
its own inverse at the same key, IV and position. -/
def xorKeystream (key iv : Nat) : Nat → List Nat → List Nat
  | _, [] => []
  | i, b :: rest => (b ^^^ keystream key iv i) :: xorKeystream key iv (i + 1) rest

/-- Modelled from the spec: `encrypt(plaintext) → ciphertext`, with the fresh
random salt, IV and iteration count of the call passed explicitly. -/
def encrypt (secret plaintext : String) (salt iv iterations : Nat) : EncryptedCookie :=
  let key := deriveKey secret salt iterations
  let ct := xorKeystream key iv 0 (plaintext.data.map Char.toNat)
  { iterations := iterations, salt := salt, iv := iv,
    authTag := macTag key iv ct, ciphertext := ct }

/-- Modelled from the spec: `decrypt(ciphertext)` re-derives the key from the
embedded salt and iteration count, verifies the authentication tag and fails
closed with a tagged error on mismatch; it never throws. -/
def decrypt (secret : String) (c : EncryptedCookie) : DecryptResult :=
  let key := deriveKey secret c.salt c.iterations
  if c.authTag = macTag key c.iv c.ciphertext then
    .success (String.mk ((xorKeystream key c.iv 0 c.ciphertext).map Char.ofNat))
  else
    .error "Unsupported state or unable to authenticate data"

/-- `encryptSessionCookie` (`sessions.ts`): encrypts a session id. -/
def encryptSessionCookie (secret sessionId : String) (salt iv iterations : Nat) :
    EncryptedCookie :=
  encrypt secret sessionId salt iv iterations

/-- `decryptSessionCookie` (`sessions/sessions.ts`): decrypts a cookie. -/
def decryptSessionCookie (secret : String) (c : EncryptedCookie) : DecryptResult :=
  decrypt secret c

/-- Value of the ciphertext region read as a base-`16 ^ 6` numeral (6 hex
digits per unit). -/
def ctNum (l : List Nat) : Nat :=
  l.foldl (fun acc b => acc * 16 ^ 6 + b) 0

/-- The opaque cookie string, read as the number its fixed-width hex encoding
denotes: `iterations | salt | iv | authTag | ciphertext` concatenated in the
spec's order.  Two cookies with distinct `wireNat` have distinct wire
strings. -/
def wireNat (c : EncryptedCookie) : Nat :=
  (((c.iterations * 16 ^ 64 + c.salt) * 16 ^ 24 + c.iv) * 16 ^ 32 + c.authTag) *
    (16 ^ 6) ^ c.ciphertext.length + ctNum c.ciphertext

theorem xorKeystream_involutive (key iv : Nat) :
    ∀ (i : Nat) (l : List Nat), xorKeystream key iv i (xorKeystream key iv i l) = l := by
  intro i l
  induction l generalizing i with
  | nil => rfl
  | cons b t ih => simp [xorKeystream, Nat.xor_cancel_right, ih]

theorem xorKeystream_length (key iv : Nat) :
    ∀ (i : Nat) (l : List Nat), (xorKeystream key iv i l).length = l.length := by
  intro i l
  induction l generalizing i with
  | nil => rfl
  | cons b t ih => simp [xorKeystream, ih]

theorem char_toNat_lt (c : Char) : c.toNat < 16 ^ 6 := by
  have h : c.val.toNat.isValidChar := c.valid
  rcases h with h | ⟨_, h⟩ <;> · show c.val.toNat < _; omega

theorem xorKeystream_mem_lt (key iv : Nat) :
    ∀ (i : Nat) (l : List Nat), (∀ b ∈ l, b < 16 ^ 6) →
      ∀ b ∈ xorKeystream key iv i l, b < 16 ^ 6 := by
  intro i l
  induction l generalizing i with
  | nil => intro _ b hb; cases hb
  | cons a t ih =>
    intro h b hb
    rw [xorKeystream] at hb
    rcases List.mem_cons.mp hb with rfl | hb
    · have h2 : (16 : Nat) ^ 6 = 2 ^ 24 := by norm_num
      rw [h2]
      exact Nat.xor_lt_two_pow (h2 ▸ h a (by simp))
        (h2 ▸ Nat.mod_lt _ (by norm_num))
    · exact ih (i + 1) (fun x hx => h x (by simp [hx])) b hb

theorem foldl_base_lt (M : Nat) (_hM : 0 < M) :
    ∀ (l : List Nat) (acc : Nat), (∀ b ∈ l, b < M) →
      l.foldl (fun a b => a * M + b) acc < (acc + 1) * M ^ l.length := by
  intro l
  induction l with
  | nil => intro acc _; simp
  | cons b t ih =>
    intro acc h
    have hb : b < M := h b (by simp)
    have hrec := ih (acc * M + b) (fun x hx => h x (by simp [hx]))
    have hle : (acc * M + b + 1) * M ^ t.length ≤ (acc + 1) * M ^ (t.length + 1) := by
      have h1 : acc * M + b + 1 ≤ (acc + 1) * M := by
        have : acc * M + M ≤ (acc + 1) * M := by ring_nf; omega
        omega
      calc (acc * M + b + 1) * M ^ t.length
          ≤ ((acc + 1) * M) * M ^ t.length := Nat.mul_le_mul_right _ h1
        _ = (acc + 1) * M ^ (t.length + 1) := by ring
    simpa [List.foldl_cons, List.length_cons] using lt_of_lt_of_le hrec hle

theorem ctNum_lt (l : List Nat) (h : ∀ b ∈ l, b < 16 ^ 6) :
    ctNum l < (16 ^ 6) ^ l.length := by
  have := foldl_base_lt (16 ^ 6) (by norm_num) l 0 h
  simpa [ctNum] using this

/-- Uniqueness of quotient and remainder in a base-`K` digit split. -/
theorem block_inj (K A B a b : Nat) (hK : 0 < K) (ha : a < K) (hb : b < K)
    (h : A * K + a = B * K + b) : A = B ∧ a = b := by
  have hA : (A * K + a) / K = A := by
    rw [Nat.mul_comm A K, Nat.mul_add_div hK, Nat.div_eq_of_lt ha, Nat.add_zero]
  have hB : (B * K + b) / K = B := by
    rw [Nat.mul_comm B K, Nat.mul_add_div hK, Nat.div_eq_of_lt hb, Nat.add_zero]
  have hAB : A = B := by rw [← hA, ← hB, h]
  subst hAB
  exact ⟨rfl, by omega⟩

/-- **C2.** Round-trip: `decrypt(encrypt(P)) = {success: P}` for every
plaintext; two calls to `encrypt(P)` with distinct fresh salts produce
different ciphertext strings; and `decrypt` is total, always returning either
`{success}` or a tagged `{error}` (as exposed through `encryptSessionCookie`
and `decryptSessionCookie`). -/
theorem encrypt_decrypt_contract :
    (∀ (secret plaintext : String) (salt iv iterations : Nat),
       decryptSessionCookie secret (encryptSessionCookie secret plaintext salt iv iterations) =
         .success plaintext) ∧
    (∀ (secret plaintext : String) (salt1 iv1 it1 salt2 iv2 it2 : Nat),
       salt1 < 16 ^ 64 → salt2 < 16 ^ 64 → iv1 < 16 ^ 24 → iv2 < 16 ^ 24 →
       salt1 ≠ salt2 →
       wireNat (encryptSessionCookie secret plaintext salt1 iv1 it1) ≠
         wireNat (encryptSessionCookie secret plaintext salt2 iv2 it2)) ∧
    (∀ (secret : String) (c : EncryptedCookie),
       (∃ p, decryptSessionCookie secret c = .success p) ∨
       (∃ e, decryptSessionCookie secret c = .error e)) := by
  refine ⟨?_, ?_, ?_⟩
  · intro secret plaintext salt iv iterations
    unfold decryptSessionCookie decrypt encryptSessionCookie encrypt
    simp only
    rw [if_true, xorKeystream_involutive, List.map_map]
    have hmap : plaintext.data.map (Char.ofNat ∘ Char.toNat) = plaintext.data.map id :=
      List.map_congr_left fun c _ => Char.ofNat_toNat c
    rw [hmap, List.map_id]
  · intro secret plaintext salt1 iv1 it1 salt2 iv2 it2 hs1 hs2 hi1 hi2 hneq heq
    apply hneq
    set c1 := encryptSessionCookie secret plaintext salt1 iv1 it1 with hc1
    set c2 := encryptSessionCookie secret plaintext salt2 iv2 it2 with hc2
    have hlen1 : c1.ciphertext.length = plaintext.length := by
      rw [hc1]
      unfold encryptSessionCookie encrypt
      rw [xorKeystream_length, List.length_map]
      rfl
    have hlen2 : c2.ciphertext.length = plaintext.length := by
      rw [hc2]
      unfold encryptSessionCookie encrypt
      rw [xorKeystream_length, List.length_map]
      rfl
    have hmem1 : ∀ b ∈ c1.ciphertext, b < 16 ^ 6 := by
      rw [hc1]; unfold encryptSessionCookie encrypt; simp only
      exact xorKeystream_mem_lt _ _ 0 _ (by
        intro b hb
        simp only [List.mem_map] at hb
        obtain ⟨ch, _, rfl⟩ := hb
        exact char_toNat_lt ch)
    have hmem2 : ∀ b ∈ c2.ciphertext, b < 16 ^ 6 := by
      rw [hc2]; unfold encryptSessionCookie encrypt; simp only
      exact xorKeystream_mem_lt _ _ 0 _ (by
        intro b hb
        simp only [List.mem_map] at hb
        obtain ⟨ch, _, rfl⟩ := hb
        exact char_toNat_lt ch)
    have htag1 : c1.authTag < 16 ^ 32 := by
      rw [hc1]; unfold encryptSessionCookie encrypt; simp only
      exact Nat.mod_lt _ (by norm_num)
    have htag2 : c2.authTag < 16 ^ 32 := by
      rw [hc2]; unfold encryptSessionCookie encrypt; simp only
      exact Nat.mod_lt _ (by norm_num)
    have hiv1 : c1.iv = iv1 := by rw [hc1]; rfl
    have hiv2 : c2.iv = iv2 := by rw [hc2]; rfl
    have hsalt1 : c1.salt = salt1 := by rw [hc1]; rfl
    have hsalt2 : c2.salt = salt2 := by rw [hc2]; rfl
    unfold wireNat at heq
    rw [hlen1, hlen2] at heq
    have hK : (0 : Nat) < (16 ^ 6) ^ plaintext.length := Nat.pos_pow_of_pos _ (by norm_num)
    have hct1 : ctNum c1.ciphertext < (16 ^ 6) ^ plaintext.length := by
      rw [← hlen1]; exact ctNum_lt _ hmem1
    have hct2 : ctNum c2.ciphertext < (16 ^ 6) ^ plaintext.length := by
      rw [← hlen2]; exact ctNum_lt _ hmem2
    obtain ⟨h1, _⟩ := block_inj _ _ _ _ _ hK hct1 hct2 heq
    obtain ⟨h2, _⟩ := block_inj _ _ _ _ _ (by norm_num : (0:Nat) < 16 ^ 32)
      htag1 htag2 h1
    obtain ⟨h3, _⟩ := block_inj _ _ _ _ _ (by norm_num : (0:Nat) < 16 ^ 24)
      (hiv1 ▸ hi1) (hiv2 ▸ hi2) h2
    obtain ⟨_, h4⟩ := block_inj _ _ _ _ _ (by norm_num : (0:Nat) < 16 ^ 64)
      (hsalt1 ▸ hs1) (hsalt2 ▸ hs2) h3
    rw [← hsalt1, ← hsalt2, h4]
  · intro secret c
    unfold decryptSessionCookie decrypt
    simp only
    split
    · exact Or.inl ⟨_, rfl⟩
    · exact Or.inr ⟨_, rfl⟩

/-- Witness for **C2**: a concrete round-trip and a concrete pair of calls
with different salts yielding different wire values. -/
theorem encrypt_decrypt_contract_witness :
    decryptSessionCookie "master" (encryptSessionCookie "master" "sess-42" 11 22 10000) =
      .success "sess-42" ∧
    wireNat (encryptSessionCookie "master" "sess-42" 11 22 10000) ≠
      wireNat (encryptSessionCookie "master" "sess-42" 13 24 10001) :=
  ⟨encrypt_decrypt_contract.1 "master" "sess-42" 11 22 10000,
   encrypt_decrypt_contract.2.1 "master" "sess-42" 11 22 10000 13 24 10001
     (by norm_num) (by norm_num) (by norm_num) (by norm_num) (by norm_num)⟩

/-! ## Redirect-host validation (`domain.ts`) and the `checkAuth` handler
(`ipc/server.ts`) -/

/-- JS `hostname.split('.')`, written over the character list. -/
def splitDot : List Char → List (List Char)
  | [] => [[]]
  | c :: rest =>
    match splitDot rest with
    | [] => []
    | g :: gs => if c = '.' then [] :: g :: gs else (c :: g) :: gs

/-- `domain.ts` configuration: the environment `ORIGIN` and its hostname.
The relation `hostname = new URL(ORIGIN).hostname` lives in the external URL
parser; both values are carried as configuration. -/
structure DomainConfig where
  origin : String
  hostname : String
deriving Repr, DecidableEq

/-- `domain.ts`: `hostname === "localhost" ? hostname :
hostname.split(".").slice(-2).join(".")` — the last two labels. -/
def domain (cfg : DomainConfig) : String :=
  if cfg.hostname = "localhost" then cfg.hostname
  else
    let parts := (splitDot cfg.hostname.data).map fun l => String.mk l
    String.intercalate "." (parts.drop (parts.length - 2))

/-- ASCII lowercasing of one character, as the URL host parser applies it. -/
def lowerChar (c : Char) : Char :=
  if 65 ≤ c.toNat ∧ c.toNat ≤ 90 then Char.ofNat (c.toNat + 32) else c

/-- ASCII lowercasing of a string. -/
def toLowerStr (s : String) : String :=
  String.mk (s.data.map lowerChar)

/-- Character class on which `new URL('http://' + host).host` is modelled:
ASCII hostname characters (letters of either case, digits, dot, hyphen,
underscore). -/
def simpleHostChar (c : Char) : Bool :=
  c.isLower || c.isUpper || c.isDigit || c == '.' || c == '-' || c == '_'

/-- `new URL('http://' + host).host`, modelled on non-empty strings of
`simpleHostChar` characters, on which the WHATWG parser succeeds and
ASCII-lowercases the hostname; `none` models the thrown `TypeError` on other
inputs.  A host carrying a `:port` keeps the port in `url.host` in the real
parser and therefore fails the `.domain` suffix check; modelling it as a
parse failure reaches the same fallback.  Userinfo, path separators and
non-ASCII (IDNA) hosts are outside the model. -/
def urlHost (s : String) : Option String :=
  if s.isEmpty then none
  else if s.data.all simpleHostChar then some (toLowerStr s) else none

/-- JS `s.endsWith(suffix)`, written structurally over the character lists. -/
def endsWithStr (s suffix : String) : Bool :=
  decide (suffix.data.length ≤ s.data.length) &&
    (s.data.drop (s.data.length - suffix.data.length) == suffix.data)

/-- `validateRedirectHost` (`domain.ts`): under the localhost configuration
only `"localhost"` is accepted; otherwise the parsed host must end with
`"." ++ domain`; a parse failure is caught and rejected. -/
def validateRedirectHost (cfg : DomainConfig) (host : String) : Bool :=
  if domain cfg = "localhost" then host == "localhost"
  else
    match urlHost host with
    | some h => endsWithStr h ("." ++ domain cfg)
    | none => false

/-- A redirect URL `ORIGIN?host=...&path=...`, as the structured value its
query parameters carry. -/
structure Redirect where
  base : String
  host : String
  path : Option String
deriving Repr, DecidableEq

/-- `buildRedirect` (`ipc/server.ts`): the validated host or the base domain
as fallback; `path` is only set when truthy (JS `if (targetPath)`, so an
empty path is dropped). -/
def buildRedirect (cfg : DomainConfig) (targetHost : String) (targetPath : Option String) :
    Redirect :=
  let validHost := if validateRedirectHost cfg targetHost then targetHost else domain cfg
  { base := cfg.origin, host := validHost,
    path := match targetPath with
            | some p => if p.isEmpty then none else some p
            | none => none }

/-- The `checkAuth` request after schema validation (`CheckAuthSchema`).  The
opaque cookie string is carried as its parsed `EncryptedCookie` value. -/
structure CheckAuthRequest where
  id : Int
  sessionCookie : Option EncryptedCookie
  host : String
  path : Option String
deriving Repr, DecidableEq

/-- The `checkAuth` reply message: `{authenticated: true, user_id, cookie}`
or `{authenticated: false, redirect}`. -/
inductive CheckAuthMessage where
  | authenticated (user_id : String) (cookie : EncryptedCookie)
  | unauthenticated (redirect : Redirect)
deriving Repr, DecidableEq

structure CheckAuthReply where
  id : Int
  message : CheckAuthMessage
deriving Repr, DecidableEq

/-- The fresh salt, IV and iteration count drawn by the `encrypt` call that
re-encrypts the cookie. -/
structure FreshRandom where
  salt : Nat
  iv : Nat
  iterations : Nat
deriving Repr, DecidableEq

/-- `registerCheckAuthHandler` (`ipc/server.ts`), the flow after schema
validation: absent cookie → redirect; decryption error → redirect (the
security warning is logged, never exposed); unknown or expired session →
redirect; live session → `refreshSession`, re-encrypt, authenticated reply.
Returns the reply paired with the updated store. -/
def handleCheckAuth (cfg : DomainConfig) (secret : String) (fresh : FreshRandom)
    (db : Db) (now : Nat) (req : CheckAuthRequest) : CheckAuthReply × Db :=
  match req.sessionCookie with
  | none =>
    ({ id := req.id, message := .unauthenticated (buildRedirect cfg req.host req.path) }, db)
  | some cookie =>
    match decryptSessionCookie secret cookie with
    | .error _ =>
      ({ id := req.id, message := .unauthenticated (buildRedirect cfg req.host req.path) }, db)
    | .success sessionId =>
      match getSessionWithUser db now sessionId with
      | none =>
        ({ id := req.id, message := .unauthenticated (buildRedirect cfg req.host req.path) }, db)
      | some session =>
        let db2 := refreshSession db now sessionId
        let newCookie := encryptSessionCookie secret sessionId fresh.salt fresh.iv fresh.iterations
        ({ id := req.id, message := .authenticated session.user_id newCookie }, db2)

/-- Concrete configuration for counterexamples and witnesses:
`ORIGIN = https://sso.example.com`, so the base domain is `example.com`. -/
def cfgCE : DomainConfig := { origin := "https://sso.example.com", hostname := "sso.example.com" }

/-- Store holding one user with a linked Google account and no session yet. -/
def dbCE : Db :=
  { users := [("u1", "x@y.z")],
    accounts := [{ id := "a1", user_id := "u1", provider := "google", provider_user_id := "p1" }],
    sessions := [], invites := [] }

/-- Counterexample to **C1** as stated: a session freshly created by
`createSessionForProvider` carries the 90-day creation window
(`SESSION_COOKIE_MAX_AGE_DAYS`), and the authenticated `checkAuth` pass
rewrites `expires_at` to `now + 50 days` — the expiry moves *backward* for a
session younger than 40 days, so it is not "extended". -/
theorem checkAuth_expiry_counterexample :
    ((createSessionForProvider dbCE 0 "s1" "google" "p1").2.sessions.map
        SessionRow.expires_at = [90 * msPerDay]) ∧
    ((handleCheckAuth cfgCE "master" ⟨1, 2, 10000⟩
        (createSessionForProvider dbCE 0 "s1" "google" "p1").2 0
        { id := 7, sessionCookie := some (encryptSessionCookie "master" "s1" 5 6 10007),
          host := "app.example.com", path := some "/dash" }).1.message =
      .authenticated "u1" (encryptSessionCookie "master" "s1" 1 2 10000)) ∧
    ((handleCheckAuth cfgCE "master" ⟨1, 2, 10000⟩
        (createSessionForProvider dbCE 0 "s1" "google" "p1").2 0
        { id := 7, sessionCookie := some (encryptSessionCookie "master" "s1" 5 6 10007),
          host := "app.example.com", path := some "/dash" }).2.sessions.map
        SessionRow.expires_at = [50 * msPerDay]) ∧
    50 * msPerDay < 90 * msPerDay := by decide

/-- **C1** (amended).  For every `checkAuth` request with a well-keyed store
(session ids unique): the reply's correlation id equals the request's id; an
absent cookie, a cookie that fails decryption, and a decrypted id with no
unexpired session each yield `{authenticated: false, redirect}` with the
redirect built from the request's host and path, leaving the store unchanged;
a live session yields `{authenticated: true}` carrying that session's user id
and a freshly encrypted cookie, with the session's `expires_at` *reset to
`now + 50 days`* (not necessarily extended: a session created under the
90-day window less than 40 days earlier has its expiry moved backward) and
all other sessions untouched. -/
theorem handleCheckAuth_spec (cfg : DomainConfig) (secret : String) (fresh : FreshRandom)
    (db : Db) (now : Nat) (req : CheckAuthRequest)
    (hUniq : ∀ r1 ∈ db.sessions, ∀ r2 ∈ db.sessions, r1.id = r2.id → r1 = r2) :
    (handleCheckAuth cfg secret fresh db now req).1.id = req.id ∧
    (req.sessionCookie = none →
      handleCheckAuth cfg secret fresh db now req =
        ({ id := req.id,
           message := .unauthenticated (buildRedirect cfg req.host req.path) }, db)) ∧
    (∀ ck e, req.sessionCookie = some ck → decryptSessionCookie secret ck = .error e →
      handleCheckAuth cfg secret fresh db now req =
        ({ id := req.id,
           message := .unauthenticated (buildRedirect cfg req.host req.path) }, db)) ∧
    (∀ ck sid, req.sessionCookie = some ck → decryptSessionCookie secret ck = .success sid →
      (∀ r ∈ db.sessions, r.id = sid → r.expires_at ≤ now) →
      handleCheckAuth cfg secret fresh db now req =
        ({ id := req.id,
           message := .unauthenticated (buildRedirect cfg req.host req.path) }, db)) ∧
    (∀ ck sid r, req.sessionCookie = some ck → decryptSessionCookie secret ck = .success sid →
      r ∈ db.sessions → r.id = sid → now < r.expires_at →
      (handleCheckAuth cfg secret fresh db now req).1.message =
        .authenticated r.user_id
          (encryptSessionCookie secret sid fresh.salt fresh.iv fresh.iterations) ∧
      (∀ r2 ∈ (handleCheckAuth cfg secret fresh db now req).2.sessions,
         r2.id = sid → r2.expires_at = now + 50 * msPerDay) ∧
      (∀ r2 ∈ (handleCheckAuth cfg secret fresh db now req).2.sessions,
         r2.id ≠ sid → r2 ∈ db.sessions)) := by
  refine ⟨?_, ?_, ?_, ?_, ?_⟩
  · cases hc : req.sessionCookie with
    | none => simp [handleCheckAuth, hc]
    | some ck =>
      cases hd : decryptSessionCookie secret ck with
      | error e => simp [handleCheckAuth, hc, hd]
      | success sid =>
        cases hg : getSessionWithUser db now sid with
        | none => simp [handleCheckAuth, hc, hd, hg]
        | some session => simp [handleCheckAuth, hc, hd, hg]
  · intro hnone
    simp [handleCheckAuth, hnone]
  · intro ck e hsome herr
    simp [handleCheckAuth, hsome, herr]
  · intro ck sid hsome hsucc hexp
    have hfind : getSessionWithUser db now sid = none := by
      unfold getSessionWithUser
      rw [List.find?_eq_none]
      intro r hr
      simp only [Bool.and_eq_true, beq_iff_eq, decide_eq_true_eq, not_and]
      intro hid hlt
      exact absurd hlt (Nat.not_lt.mpr (hexp r hr hid))
    simp [handleCheckAuth, hsome, hsucc, hfind]
  · intro ck sid r hsome hsucc hr hid hlive
    obtain ⟨r0, hg⟩ : ∃ r0, getSessionWithUser db now sid = some r0 := by
      cases hg : getSessionWithUser db now sid with
      | some r0 => exact ⟨r0, rfl⟩
      | none =>
        unfold getSessionWithUser at hg
        rw [List.find?_eq_none] at hg
        exact absurd (by simp [hid, hlive] :
          (r.id == sid && decide (now < r.expires_at)) = true) (hg r hr)
    have hg2 : db.sessions.find? (fun s => s.id == sid && decide (now < s.expires_at)) =
        some r0 := hg
    have hr0mem : r0 ∈ db.sessions := List.mem_of_find?_eq_some hg2
    have hpred := List.find?_some hg2
    simp only [Bool.and_eq_true, beq_iff_eq, decide_eq_true_eq] at hpred
    have hr0 : r0 = r := hUniq r0 hr0mem r hr (by rw [hpred.1, hid])
    subst hr0
    refine ⟨?_, ?_, ?_⟩
    · simp [handleCheckAuth, hsome, hsucc, hg]
    · intro r2 h2 hid2
      simp only [handleCheckAuth, hsome, hsucc, hg] at h2
      unfold refreshSession at h2
      simp only [List.mem_map] at h2
      obtain ⟨t, _ht, rfl⟩ := h2
      by_cases h : t.id = sid
      · simp [h]
      · simp only [if_neg h] at hid2 ⊢
        exact absurd hid2 h
    · intro r2 h2 hne2
      simp only [handleCheckAuth, hsome, hsucc, hg] at h2
      unfold refreshSession at h2
      simp only [List.mem_map] at h2
      obtain ⟨t, ht, rfl⟩ := h2
      by_cases h : t.id = sid
      · exfalso; apply hne2; simp [h]
      · simpa [if_neg h] using ht

/-- Witness for **C1** (amended): the authenticated branch evaluated on the
concrete store `dbW` at time 3 with a valid cookie for session `s1`. -/
theorem handleCheckAuth_spec_witness :
    (handleCheckAuth cfgCE "master" ⟨1, 2, 10000⟩ dbW 3
        { id := 9, sessionCookie := some (encryptSessionCookie "master" "s1" 5 6 10007),
          host := "app.example.com", path := some "/p" }).1.message =
      .authenticated "u1" (encryptSessionCookie "master" "s1" 1 2 10000) := by
  have h := handleCheckAuth_spec cfgCE "master" ⟨1, 2, 10000⟩ dbW 3
    { id := 9, sessionCookie := some (encryptSessionCookie "master" "s1" 5 6 10007),
      host := "app.example.com", path := some "/p" }
    (by intro r1 h1 r2 h2 _; simp [dbW] at h1 h2; rw [h1, h2])
  exact (h.2.2.2.2 (encryptSessionCookie "master" "s1" 5 6 10007) "s1" rowW rfl
    (by decide) (by decide) (by decide) (by decide)).1

/-- JSON-ish runtime values crossing the protocol boundary.  (Arrays are not
modelled; like the other non-object values they fail both schemas and answer
`undefined` to property access.) -/
inductive JVal where
  | jnull
  | jundefined
  | jnum (n : Int)
  | jstr (s : String)
  | jbool (b : Bool)
  | jobj (fields : List (String × JVal))
deriving Repr

/-- JS property access `data.id`: `undefined` for a missing field or a
primitive receiver; `none` models the thrown `TypeError` when the receiver is
`null` or `undefined`. -/
def jsMember : JVal → String → Option JVal
  | .jnull, _ => none
  | .jundefined, _ => none
  | .jobj fields, k => some ((fields.lookup k).getD .jundefined)
  | _, _ => some .jundefined

/-- The output of a successful `safeParse(CheckAuthSchema, ...)`: numeric id,
optional cookie string, host, optional path. -/
structure ParsedCheckAuth where
  id : Int
  sessionCookie : Option String
  host : String
  path : Option String
deriving Repr, DecidableEq

/-- valibot `optional(string())`: a missing or `undefined` field passes as
absent, a string passes, anything else is rejected. -/
def parseOptionalString : JVal → Option (Option String)
  | .jundefined => some none
  | .jstr s => some (some s)
  | _ => none

/-- `safeParse(CheckAuthSchema, data)` (`ipc/server.ts`): an object with a
numeric `id` and a `message` object holding `sessionCookie?`, `host` and
`path?`; unknown keys are ignored. -/
def safeParseCheckAuth (v : JVal) : Option ParsedCheckAuth :=
  match v with
  | .jobj fields =>
    match (fields.lookup "id").getD .jundefined with
    | .jnum n =>
      match (fields.lookup "message").getD .jundefined with
      | .jobj msg =>
        match (msg.lookup "host").getD .jundefined with
        | .jstr host =>
          match parseOptionalString ((msg.lookup "sessionCookie").getD .jundefined),
                parseOptionalString ((msg.lookup "path").getD .jundefined) with
          | some sc, some p => some { id := n, sessionCookie := sc, host := host, path := p }
          | _, _ => none
        | _ => none
      | _ => none
    | _ => none
  | _ => none

/-- `safeParse(InvitationCodeSchema, data)`: an object with a numeric `id`. -/
def safeParseInvitation (v : JVal) : Option Int :=
  match v with
  | .jobj fields =>
    match (fields.lookup "id").getD .jundefined with
    | .jnum n => some n
    | _ => none
  | _ => none

/-- The `getInvitationCode` reply message: `{code}` or a tagged `{error}`. -/
inductive InvitationMessage where
  | code (code : String)
  | error (message : String)
deriving Repr, DecidableEq

/-- `registerCheckAuthHandler`'s validation shell (`ipc/server.ts`): schema
failure → reply `{id: data.id, message: {authenticated: false, redirect:
buildRedirect('')}}`; the validated flow is the continuation `k`.  `none`
models the handler itself throwing (the `data.id` access on a `null` or
`undefined` payload). -/
def rawCheckAuthHandler (cfg : DomainConfig) (k : ParsedCheckAuth → CheckAuthMessage)
    (data : JVal) : Option (JVal × CheckAuthMessage) :=
  match safeParseCheckAuth data with
  | none =>
    match jsMember data "id" with
    | none => none
    | some idv => some (idv, .unauthenticated (buildRedirect cfg "" none))
  | some parsed => some (.jnum parsed.id, k parsed)

/-- `registerInvitationCodeHandler`'s validation shell (`ipc/server.ts`):
schema failure → reply `{id: data.id, message: {error: 'Invalid request'}}`. -/
def rawInvitationHandler (k : Int → InvitationMessage) (data : JVal) :
    Option (JVal × InvitationMessage) :=
  match safeParseInvitation data with
  | none =>
    match jsMember data "id" with
    | none => none
    | some idv => some (idv, .error "Invalid request")
  | some n => some (.jnum n, k n)

/-- Counterexample to **C7** as stated: a `null` payload fails both schemas,
yet the fallback reply evaluates `data.id`, which throws a `TypeError` on
`null` — the handler crashes instead of replying with the safe default. -/
theorem malformed_request_counterexample :
    safeParseCheckAuth .jnull = none ∧
    rawCheckAuthHandler cfgCE (fun _ => .unauthenticated (buildRedirect cfgCE "" none))
      .jnull = none ∧
    safeParseInvitation .jnull = none ∧
    rawInvitationHandler (fun _ => .error "e") .jnull = none :=
  ⟨rfl, rfl, rfl, rfl⟩

/-- **C7** (amended).  For every inbound message that fails schema validation
and is not `null`/`undefined`, the server replies with the safe default
carrying the message's `id` field (itself `undefined` when absent) — the
unauthenticated redirect for `checkAuth`, the tagged `{error: 'Invalid
request'}` for `getInvitationCode` — without crashing; a `null` or
`undefined` payload instead throws while building the fallback reply. -/
theorem malformed_request_safe_default (cfg : DomainConfig)
    (k : ParsedCheckAuth → CheckAuthMessage) (kI : Int → InvitationMessage) :
    (∀ data, safeParseCheckAuth data = none → data ≠ .jnull → data ≠ .jundefined →
      ∃ idv, jsMember data "id" = some idv ∧
        rawCheckAuthHandler cfg k data =
          some (idv, .unauthenticated (buildRedirect cfg "" none))) ∧
    (∀ data, safeParseInvitation data = none → data ≠ .jnull → data ≠ .jundefined →
      ∃ idv, jsMember data "id" = some idv ∧
        rawInvitationHandler kI data = some (idv, .error "Invalid request")) := by
  constructor
  · intro data hfail hnn hnu
    cases data with
    | jnull => exact absurd rfl hnn
    | jundefined => exact absurd rfl hnu
    | jnum n => exact ⟨.jundefined, rfl, by simp [rawCheckAuthHandler, hfail, jsMember]⟩
    | jstr s => exact ⟨.jundefined, rfl, by simp [rawCheckAuthHandler, hfail, jsMember]⟩
    | jbool b => exact ⟨.jundefined, rfl, by simp [rawCheckAuthHandler, hfail, jsMember]⟩
    | jobj fields =>
      exact ⟨(fields.lookup "id").getD .jundefined, rfl,
        by simp [rawCheckAuthHandler, hfail, jsMember]⟩
  · intro data hfail hnn hnu
    cases data with
    | jnull => exact absurd rfl hnn
    | jundefined => exact absurd rfl hnu
    | jnum n => exact ⟨.jundefined, rfl, by simp [rawInvitationHandler, hfail, jsMember]⟩
    | jstr s => exact ⟨.jundefined, rfl, by simp [rawInvitationHandler, hfail, jsMember]⟩
    | jbool b => exact ⟨.jundefined, rfl, by simp [rawInvitationHandler, hfail, jsMember]⟩
    | jobj fields =>
      exact ⟨(fields.lookup "id").getD .jundefined, rfl,
        by simp [rawInvitationHandler, hfail, jsMember]⟩

/-- Witness for **C7** (amended): a bare string payload gets the redirect
default with an `undefined` id on the `checkAuth` channel. -/
theorem malformed_request_safe_default_witness :
    ∃ idv, jsMember (.jstr "oops") "id" = some idv ∧
      rawCheckAuthHandler cfgCE (fun _ => .unauthenticated (buildRedirect cfgCE "" none))
        (.jstr "oops") = some (idv, .unauthenticated (buildRedirect cfgCE "" none)) :=
  (malformed_request_safe_default cfgCE
      (fun _ => .unauthenticated (buildRedirect cfgCE "" none))
      (fun _ => .error "e")).1
    (.jstr "oops") rfl (fun h => by cases h) (fun h => by cases h)

/-! ## IPC client connection state machine (`client/index.ts`) -/

/-- The `ConnectionState` union of `client/index.ts`. -/
inductive ConnectionState where
  | connecting
  | connected
  | disconnected
  | destroyed
deriving Repr, DecidableEq

/-- Events driving the client's `state` variable: the socket-level `connect`,
`disconnect` and `destroy` events, and the explicit `disconnect()` call. -/
inductive ClientEvent where
  | connectEvt
  | disconnectEvt
  | destroyEvt
  | disconnectCall
deriving Repr, DecidableEq

/-- The handlers registered in `createSsoClient`, plus `disconnect()`: each
writes the state unconditionally (`'connected'` on connect, `'connecting'` on
disconnect, `'destroyed'` on the destroy event and on `disconnect()`). -/
def clientStep : ConnectionState → ClientEvent → ConnectionState
  | _, .connectEvt => .connected
  | _, .disconnectEvt => .connecting
  | _, .destroyEvt => .destroyed
  | _, .disconnectCall => .destroyed

/-- Outcome of calling `checkAuth`/`getInvitationCode` in a given state. -/
inductive CallOutcome where
  | thrown (message : String)
  | rejected (message : String)
  | sent
deriving Repr, DecidableEq

/-- `checkAuth` (`client/index.ts`): destroyed → synchronous throw; not
connected → promise rejection; connected → request emitted. -/
def checkAuthCall : ConnectionState → CallOutcome
  | .destroyed => .thrown "SSO client is destroyed"
  | .connected => .sent
  | _ => .rejected "Not connected to SSO server"

/-- `getInvitationCode` (`client/index.ts`): the same guards. -/
def getInvitationCodeCall : ConnectionState → CallOutcome
  | .destroyed => .thrown "SSO client is destroyed"
  | .connected => .sent
  | _ => .rejected "Not connected to SSO server"

/-- Counterexample to **C8** as stated: a disconnect event takes `connected`
straight to `connecting` (the `disconnected` state is skipped), the transport
`destroy` event also reaches `destroyed` without an explicit `disconnect()`
call, and a later `connect` event would leave `destroyed` — so `destroyed` is
not terminal in the handler code itself. -/
theorem client_state_machine_counterexample :
    clientStep .connected .disconnectEvt = .connecting ∧
    ConnectionState.connecting ≠ ConnectionState.disconnected ∧
    clientStep .connecting .destroyEvt = .destroyed ∧
    clientStep .destroyed .connectEvt = .connected ∧
    ConnectionState.connected ≠ ConnectionState.destroyed := by decide

/-- **C8** (amended).  The client's state variable only ever takes the values
`connecting`, `connected` and `destroyed`: the `disconnected` member of the
union is never assigned (a disconnect event maps directly to `connecting`);
`destroyed` is entered by the explicit `disconnect()` call and by the
transport's `destroy` event, and by nothing else; while the state is
`destroyed`, `checkAuth` and `getInvitationCode` fail fast with a tagged
error (a synchronous throw), and in any other non-connected state they reject
with a tagged error rather than hanging. -/
theorem client_state_machine_amended :
    (∀ s e, clientStep s e ≠ .disconnected) ∧
    (∀ s, clientStep s .disconnectCall = .destroyed) ∧
    (∀ s e, clientStep s e = .destroyed → e = .destroyEvt ∨ e = .disconnectCall) ∧
    checkAuthCall .destroyed = .thrown "SSO client is destroyed" ∧
    getInvitationCodeCall .destroyed = .thrown "SSO client is destroyed" ∧
    (∀ s, s ≠ .destroyed → s ≠ .connected →
      checkAuthCall s = .rejected "Not connected to SSO server" ∧
      getInvitationCodeCall s = .rejected "Not connected to SSO server") ∧
    checkAuthCall .connected = .sent ∧ getInvitationCodeCall .connected = .sent := by
  refine ⟨?_, fun s => rfl, ?_, rfl, rfl, ?_, rfl, rfl⟩
  · intro s e
    cases e <;> simp [clientStep]
  · intro s e h
    cases e <;> simp [clientStep] at h ⊢
  · intro s hd hc
    cases s with
    | connecting => exact ⟨rfl, rfl⟩
    | connected => exact absurd rfl hc
    | disconnected => exact ⟨rfl, rfl⟩
    | destroyed => exact absurd rfl hd

/-- Witness for **C8** (amended): concrete instances of the guarded parts. -/
theorem client_state_machine_amended_witness :
    clientStep .connected .disconnectEvt ≠ .disconnected ∧
    (ClientEvent.destroyEvt = .destroyEvt ∨ ClientEvent.destroyEvt = .disconnectCall) ∧
    checkAuthCall .connecting = .rejected "Not connected to SSO server" :=
  ⟨client_state_machine_amended.1 .connected .disconnectEvt,
   client_state_machine_amended.2.2.1 .connecting .destroyEvt rfl,
   (client_state_machine_amended.2.2.2.2.2.1 .connecting (by decide) (by decide)).1⟩

/-! ## Invitation manager (`invitations/invitations.ts`, `generateCode.ts`) -/

/-- The closure variables `lastAttemptTime` and `attemptBatchCount`, both
initially 0. -/
structure ThrottleState where
  lastAttemptTime : Nat
  attemptBatchCount : Nat
deriving Repr, DecidableEq

def initThrottle : ThrottleState := { lastAttemptTime := 0, attemptBatchCount := 0 }

/-- The `getInviteStmt` test (`SELECT code FROM invites WHERE code = ? AND
expires_at > datetime('now') LIMIT 1`). -/
def inviteValid (invites : List Invite) (now : Nat) (code : String) : Bool :=
  invites.any fun i => i.code == code && decide (now < i.expires_at)

/-- `checkInvitationCode` (`invitations/invitations.ts`): valid code → result
`true` after a constant 1000 ms delay, throttle untouched; invalid code → the
failure counter increments when the failure comes within 60 s of the previous
failure and resets to 1 otherwise, `lastAttemptTime` is set to `now`, and the
result is `false` after `min(counter² × 500 ms, 60 s)`.  Returned as
(result, delay in ms, updated closure state). -/
def checkInvitationCode (invites : List Invite) (st : ThrottleState) (now : Nat)
    (code : String) : Bool × Nat × ThrottleState :=
  if !(inviteValid invites now code) then
    let count := if now - st.lastAttemptTime < 60000 then st.attemptBatchCount + 1 else 1
    let delay := min (count ^ 2 * 500) 60000
    (false, delay, { lastAttemptTime := now, attemptBatchCount := count })
  else
    (true, 1000, st)

/-- The closure state after processing a chronological request history. -/
def runThrottle (invites : List Invite) (rs : List (Nat × String)) : ThrottleState :=
  rs.foldl (fun st r => (checkInvitationCode invites st r.1 r.2).2.2) initThrottle

/-- Times of the failed checks of a history, most recent first. -/
def failTimes (invites : List Invite) (rs : List (Nat × String)) : List Nat :=
  ((rs.filter fun r => !(inviteValid invites r.1 r.2)).map Prod.fst).reverse

/-- The claim's counter, computed statelessly from the failure times (most
recent first): a failure within 60 seconds of the previous failure increments
the count, otherwise the count restarts at 1.  The base case also covers the
initial closure state (`lastAttemptTime = 0`, count 0). -/
def histCount : List Nat → Nat
  | [] => 0
  | f :: rest => if f - rest.headD 0 < 60000 then histCount rest + 1 else 1

/-- State elimination: the closure state after any history is determined by
the history's failure times alone. -/
theorem runThrottle_characterization (invites : List Invite) (rs : List (Nat × String)) :
    (runThrottle invites rs).lastAttemptTime = (failTimes invites rs).headD 0 ∧
    (runThrottle invites rs).attemptBatchCount = histCount (failTimes invites rs) := by
  induction rs using List.reverseRecOn with
  | nil => exact ⟨rfl, rfl⟩
  | append_singleton rs r ih =>
    have hrun : runThrottle invites (rs ++ [r]) =
        (checkInvitationCode invites (runThrottle invites rs) r.1 r.2).2.2 := by
      unfold runThrottle
      rw [List.foldl_append]
      rfl
    have hft : failTimes invites (rs ++ [r]) =
        (if !(inviteValid invites r.1 r.2) then [r.1] else []) ++ failTimes invites rs := by
      unfold failTimes
      rw [List.filter_append, List.map_append, List.reverse_append]
      congr 1
      by_cases hv : inviteValid invites r.1 r.2 = true <;> simp [hv]
    cases hv : inviteValid invites r.1 r.2 with
    | true =>
      rw [hv] at hft
      simp only [Bool.not_true, List.nil_append] at hft
      rw [hrun, hft]
      unfold checkInvitationCode
      rw [hv]
      exact ih
    | false =>
      rw [hv] at hft
      simp only [Bool.not_false, List.singleton_append] at hft
      rw [hrun, hft]
      unfold checkInvitationCode
      rw [hv]
      simp only [Bool.not_false, if_true]
      constructor
      · rfl
      · show (if r.1 - (runThrottle invites rs).lastAttemptTime < 60000 then
            (runThrottle invites rs).attemptBatchCount + 1 else 1) =
          histCount (r.1 :: failTimes invites rs)
        rw [ih.1, ih.2]
        rfl

/-- **C4.** Over every request history: a valid code completes with `true`
after the constant 1-second delay, regardless of preceding failures, leaving
the throttle untouched; an invalid code returns `false` after
`min(counter² × 500 ms, 60 s)`, where the counter counts the consecutive
failures each occurring within 60 seconds of the previous failure and resets
to 1 once 60 seconds pass without a new failure. -/
theorem checkInvitationCode_throttle_spec (invites : List Invite)
    (past : List (Nat × String)) (now : Nat) (code : String) :
    (inviteValid invites now code = true →
      checkInvitationCode invites (runThrottle invites past) now code =
        (true, 1000, runThrottle invites past)) ∧
    (inviteValid invites now code = false →
      checkInvitationCode invites (runThrottle invites past) now code =
        (false, min (histCount (now :: failTimes invites past) ^ 2 * 500) 60000,
         { lastAttemptTime := now,
           attemptBatchCount := histCount (now :: failTimes invites past) })) := by
  obtain ⟨h1, h2⟩ := runThrottle_characterization invites past
  constructor
  · intro hv
    unfold checkInvitationCode
    rw [hv]
    rfl
  · intro hv
    unfold checkInvitationCode
    rw [hv]
    simp only [Bool.not_false, if_true]
    have hcount : (if now - (runThrottle invites past).lastAttemptTime < 60000 then
        (runThrottle invites past).attemptBatchCount + 1 else 1) =
        histCount (now :: failTimes invites past) := by
      rw [h1, h2]
      rfl
    rw [hcount]

/-- Concrete invite table for the invitation witnesses. -/
def invW : List Invite := [{ code := "magic words here", expires_at := 1000000000 }]

/-- Witness for **C4**: two failures at 0 ms and 30 s, a third at 50 s —
the counter reaches 3 and the delay is `min(3² × 500, 60000) = 4500 ms`. -/
theorem checkInvitationCode_throttle_spec_witness :
    checkInvitationCode invW (runThrottle invW [(0, "bad"), (30000, "bad2")]) 50000 "bad3" =
      (false, min (histCount (50000 :: failTimes invW [(0, "bad"), (30000, "bad2")]) ^ 2 * 500)
        60000,
       { lastAttemptTime := 50000,
         attemptBatchCount := histCount (50000 :: failTimes invW [(0, "bad"), (30000, "bad2")]) }) :=
  (checkInvitationCode_throttle_spec invW [(0, "bad"), (30000, "bad2")] 50000 "bad3").2
    (by decide)

/-- `generateCode` (`invitations/generateCode.ts`): draws candidate codes —
in the source each candidate is a concatenation of random dictionary words —
until one avoids `existingCodes`.  The random word draw is abstracted as the
candidate stream `cands`; the unbounded `while (true)` retry loop carries
explicit fuel, `none` standing for non-termination. -/
def generateCode (cands : Nat → String) (existingCodes : List String) :
    Nat → Nat → Option String
  | 0, _ => none
  | fuel + 1, k =>
    let code := cands k
    if existingCodes.contains code then generateCode cands existingCodes fuel (k + 1)
    else some code

/-- `generateInvitationCode` (`invitations/invitations.ts`): collects every
stored code (`SELECT code FROM invites`, with no expiry filter), draws a
non-colliding code and inserts it with expiry 30 days from now. -/
def generateInvitationCode (db : Db) (now : Nat) (cands : Nat → String) (fuel : Nat) :
    Option (String × Db) :=
  let existingCodes := db.invites.map Invite.code
  match generateCode cands existingCodes fuel 0 with
  | none => none
  | some code =>
    some (code,
      { db with invites := db.invites ++ [{ code := code, expires_at := now + 30 * msPerDay }] })

theorem generateCode_avoids (cands : Nat → String) (existing : List String) :
    ∀ (fuel k : Nat) (code : String), generateCode cands existing fuel k = some code →
      code ∉ existing := by
  intro fuel
  induction fuel with
  | zero => intro k code h; cases h
  | succ n ih =>
    intro k code h
    unfold generateCode at h
    by_cases hc : existing.contains (cands k) = true
    · rw [if_pos hc] at h
      exact ih (k + 1) code h
    · rw [if_neg hc] at h
      injection h with h2
      subst h2
      exact fun hmem => hc (List.elem_eq_true_of_mem hmem)

/-- **C6.** When `generateInvitationCode` returns a code, that code differs
from every code currently unexpired in storage (indeed from every stored code,
expired or not), and it is persisted with expiry exactly 30 days from
issuance. -/
theorem generateInvitationCode_fresh (db : Db) (now : Nat) (cands : Nat → String)
    (fuel : Nat) (code : String) (db' : Db)
    (h : generateInvitationCode db now cands fuel = some (code, db')) :
    (∀ inv ∈ db.invites, now < inv.expires_at → inv.code ≠ code) ∧
    ({ code := code, expires_at := now + 30 * msPerDay } : Invite) ∈ db'.invites ∧
    db'.invites = db.invites ++ [{ code := code, expires_at := now + 30 * msPerDay }] := by
  unfold generateInvitationCode at h
  cases hg : generateCode cands (db.invites.map Invite.code) fuel 0 with
  | none =>
    simp only [hg] at h
    exact Option.noConfusion h
  | some c =>
    simp only [hg, Option.some.injEq, Prod.mk.injEq] at h
    obtain ⟨hc, hdb⟩ := h
    rw [hc] at hg hdb
    have hnotmem : code ∉ db.invites.map Invite.code :=
      generateCode_avoids cands (db.invites.map Invite.code) fuel 0 code hg
    refine ⟨?_, ?_, ?_⟩
    · intro inv hinv _ heq
      exact hnotmem (heq ▸ List.mem_map_of_mem Invite.code hinv)
    · rw [← hdb]
      simp
    · rw [← hdb]

/-- Concrete candidate stream for the **C6** witness: the first draw collides
with the stored code, the second is fresh. -/
def candsW : Nat → String := fun k => if k = 0 then "taken words here" else "fresh wordz here"

def dbI : Db :=
  { users := [], accounts := [], sessions := [],
    invites := [{ code := "taken words here", expires_at := 5 * msPerDay }] }

/-- Witness for **C6**: the colliding first draw is skipped and the fresh
code is persisted with a 30-day expiry. -/
theorem generateInvitationCode_fresh_witness :
    (∀ inv ∈ dbI.invites, 0 < inv.expires_at → inv.code ≠ "fresh wordz here") ∧
    ({ code := "fresh wordz here", expires_at := 0 + 30 * msPerDay } : Invite) ∈
      (dbI.invites ++ [{ code := "fresh wordz here", expires_at := 0 + 30 * msPerDay }]) ∧
    (dbI.invites ++ [{ code := "fresh wordz here", expires_at := 0 + 30 * msPerDay }]) =
      dbI.invites ++ [{ code := "fresh wordz here", expires_at := 0 + 30 * msPerDay }] :=
  generateInvitationCode_fresh dbI 0 candsW 5 "fresh wordz here"
    { dbI with
      invites := dbI.invites ++ [{ code := "fresh wordz here", expires_at := 0 + 30 * msPerDay }] }
    (by decide)

/-! ## Bounded LRU session cache (`lru-cache.ts`)

The source mutates heap-allocated nodes of a doubly-linked list.  Nodes live
in an explicit heap (node id ↦ node); the JS `Map` becomes an association
list key ↦ node id; `oldest`/`newest` hold node ids.  Each JS field write
becomes one heap update, performed in source order, so aliasing behaves as in
the source.  Keys and values are naturals. -/

structure LruNode where
  prev : Option Nat
  next : Option Nat
  key : Nat
  value : Nat
deriving Repr, DecidableEq

structure LruState where
  heap : List (Nat × LruNode)
  cache : List (Nat × Nat)
  oldest : Option Nat
  newest : Option Nat
  nextId : Nat
deriving Repr, DecidableEq

def emptyLru : LruState :=
  { heap := [], cache := [], oldest := none, newest := none, nextId := 0 }

/-- Heap read (dereference a node id). -/
def hGet (heap : List (Nat × LruNode)) (i : Nat) : Option LruNode :=
  heap.lookup i

/-- One JS field write: update node `i` in place. -/
def hUpd (heap : List (Nat × LruNode)) (i : Nat) (f : LruNode → LruNode) :
    List (Nat × LruNode) :=
  heap.map fun p => if p.1 = i then (p.1, f p.2) else p

/-- `cache.get(key)`. -/
def mGet (cache : List (Nat × Nat)) (k : Nat) : Option Nat :=
  cache.lookup k

/-- `cache.delete(key)` (a no-op when the key is absent, as in JS). -/
def mDel (cache : List (Nat × Nat)) (k : Nat) : List (Nat × Nat) :=
  cache.filter fun p => !(p.1 == k)

/-- `cache.set(key, entry)`; on the only path that calls it the key is absent,
so it appends in insertion order. -/
def mSet (cache : List (Nat × Nat)) (k i : Nat) : List (Nat × Nat) :=
  cache ++ [(k, i)]

/-- The `touch` helper (`lru-cache.ts`): unlink `entry` and re-attach it at
the `newest` end, field write by field write in source order; a node with no
`next` (already newest) is left alone. -/
def touch (s : LruState) (eid : Nat) : LruState :=
  match hGet s.heap eid with
  | none => s
  | some e =>
    match e.next with
    | none => s
    | some enext =>
      match e.prev with
      | none =>
        let h1 := hUpd s.heap enext fun n => { n with prev := none }
        let h2 := hUpd h1 eid fun n => { n with next := none }
        match s.newest with
        | some w =>
          let h3 := hUpd h2 eid fun n => { n with prev := some w }
          let h4 := hUpd h3 w fun n => { n with next := some eid }
          { s with heap := h4, oldest := some enext, newest := some eid }
        | none =>
          { s with heap := h2, oldest := some enext, newest := some eid }
      | some eprev =>
        let h1 := hUpd s.heap eprev fun n => { n with next := some enext }
        let h2 := hUpd h1 enext fun n => { n with prev := some eprev }
        let h3 := hUpd h2 eid fun n => { n with next := none }
        match s.newest with
        | some w =>
          let h4 := hUpd h3 w fun n => { n with next := some eid }
          let h5 := hUpd h4 eid fun n => { n with prev := some w }
          { s with heap := h5, newest := some eid }
        | none =>
          { s with heap := h3, newest := some eid }

/-- `get(key, cb)`: miss → `cb(null, undefined)`; hit → promote via `touch`,
then return the entry's value. -/
def lruGet (s : LruState) (k : Nat) : Option Nat × LruState :=
  match mGet s.cache k with
  | none => (none, s)
  | some eid =>
    let s2 := touch s eid
    ((hGet s2.heap eid).map LruNode.value, s2)

/-- `set(key, value, cb)`: when the map is at capacity and `oldest` is set,
evict the node `oldest` points to (`cache.delete`, advance `oldest` when the
node has a `next`, clear `newest` when the node is `newest`); then either
update-and-promote an existing entry or append a fresh node. -/
def lruSet (s : LruState) (max : Nat) (k v : Nat) : LruState :=
  let s1 :=
    if max ≤ s.cache.length then
      match s.oldest with
      | some oid =>
        match hGet s.heap oid with
        | none => s
        | some toDelete =>
          let s2 := { s with cache := mDel s.cache toDelete.key }
          let s3 :=
            match toDelete.next with
            | some nid =>
              let s2b := { s2 with oldest := some nid }
              { s2b with heap := hUpd s2b.heap nid fun n => { n with prev := none } }
            | none => s2
          if s3.newest = some oid then { s3 with newest := none } else s3
      | none => s
    else s
  match mGet s1.cache k with
  | some eid =>
    let s2 := { s1 with heap := hUpd s1.heap eid fun n => { n with value := v } }
    touch s2 eid
  | none =>
    let eid := s1.nextId
    let node : LruNode := { prev := s1.newest, next := none, key := k, value := v }
    let h1 := s1.heap ++ [(eid, node)]
    let h2 :=
      match s1.newest with
      | some w => hUpd h1 w fun n => { n with next := some eid }
      | none => h1
    { heap := h2, cache := mSet s1.cache k eid,
      oldest := match s1.oldest with | none => some eid | some o => some o,
      newest := some eid, nextId := eid + 1 }

/-- `destroy(key, cb)`: unlink the node (each field read against the current
heap, in source order) and delete the key. -/
def lruDestroy (s : LruState) (k : Nat) : LruState :=
  match mGet s.cache k with
  | none => s
  | some eid =>
    match hGet s.heap eid with
    | none => s
    | some e =>
      let s1 :=
        match e.prev with
        | some p => { s with heap := hUpd s.heap p fun n => { n with next := e.next } }
        | none => { s with oldest := e.next }
      let e2 := (hGet s1.heap eid).getD e
      let s2 :=
        match e2.next with
        | some nx => { s1 with heap := hUpd s1.heap nx fun n => { n with prev := e2.prev } }
        | none => { s1 with newest := e2.prev }
      { s2 with cache := mDel s2.cache k }

/-- `clear(cb)`. -/
def lruClear (s : LruState) : LruState :=
  { s with cache := [], oldest := none, newest := none }

/-- **C9** fails on the code: with capacity `max = 1`, the trace
`set(10); set(20); set(30)` leaves the cache holding *two* entries (keys 20
and 30).  Evicting the sole node leaves `oldest` pointing at the deleted node
(the code only clears `newest`), so the next insertion's eviction deletes a
key that is no longer present and the capacity bound is breached. -/
theorem lru_capacity_violation :
    ((lruSet (lruSet (lruSet emptyLru 1 10 100) 1 20 200) 1 30 300).cache.map
        Prod.fst = [20, 30]) ∧
    (lruSet (lruSet (lruSet emptyLru 1 10 100) 1 20 200) 1 30 300).cache.length = 2 ∧
    ¬ (lruSet (lruSet (lruSet emptyLru 1 10 100) 1 20 200) 1 30 300).cache.length ≤ 1 := by
  decide

end SSO

